import Mathlib

/-!
Verification development for the FMS/TMS check-status reconciliation service.

The service (Node serverless functions in `api/check-status.js`,
`api/check-status-pro.js`, `api/check-status-pu.js` and two unnamed drafts)
reconciles shipment status between two upstream backends:

* "FMS" (Order-System): batched search resolving a tracking/pickup number to a
  DO order reference, then two per-order detail GETs (basic location; head
  status/substatus);
* "TMS" (Trace-System): form login, mandatory group switch, and a trace query.

We shallowly embed the pure decision logic of those functions.  Network I/O is
modelled by outcome oracles: every `await fetch` that the code wraps in a
try/catch is represented by an `Outcome` value saying whether the awaited call
returned a parsed value, threw a `TypeError` (connectivity failure, the code
tests `e.name === "TypeError"`), or threw any other error (bad HTTP status or
a parse failure).  Calls whose failure propagates out of a function are
modelled with `Except Unit`.
-/

/-- Outcome of one awaited sub-call as the JS try/catch blocks distinguish
them: a parsed value, a thrown `TypeError` (connectivity failure), or any
other thrown error (non-ok HTTP status, JSON parse failure). -/
inductive Outcome (α : Type) where
  | ok (v : α)
  | typeErr
  | genErr
deriving DecidableEq, Repr

/-- Whether the sub-call returned a value (the `xxxOk = true` assignment at
the end of each try block is reached). -/
def Outcome.isOk {α : Type} : Outcome α → Bool
  | .ok _ => true
  | _ => false

/-- Whether the sub-call threw a `TypeError` (the `networkError = true`
branch of the catch). -/
def Outcome.isTypeErr {α : Type} : Outcome α → Bool
  | .typeErr => true
  | _ => false

/-- Whether the sub-call threw a non-`TypeError` error (the
`generalError = true` branch of the catch). -/
def Outcome.isGenErr {α : Type} : Outcome α → Bool
  | .genErr => true
  | _ => false

/-- JS nullish coalescing `a ?? b` on possibly-null values. -/
def jsOr {α : Type} (a b : Option α) : Option α :=
  match a with
  | some x => some x
  | none => b

/-- JS `String.prototype.trim`: strip whitespace from both ends (modelled
over the character list so that it evaluates by kernel reduction). -/
def jsTrim (s : String) : String :=
  ⟨((s.data.dropWhile Char.isWhitespace).reverse.dropWhile
      Char.isWhitespace).reverse⟩

/-- JS `String(v ?? "").trim()` (the `cleanPro` / `cleanPu` helpers). -/
def clean (v : Option String) : String := jsTrim (v.getD "")

/-- JS truthiness of a possibly-null string (`null` and `""` are falsy). -/
def jsTruthy (v : Option String) : Bool :=
  match v with
  | some s => s != ""
  | none => false

/-- JS object read `m[k]`, on an association-list model of a string-keyed
object. -/
def objGet : List (String × String) → String → Option String
  | [], _ => none
  | (k', v') :: rest, k => if k' == k then some v' else objGet rest k

/-- JS object write `m[k] = v`: overwrite the existing binding or append a
new one. -/
def objSet : List (String × String) → String → String → List (String × String)
  | [], k, v => [(k, v)]
  | (k', v') :: rest, k, v =>
      if k' == k then (k, v) :: rest else (k', v') :: objSet rest k v

/-- The tracking-number format test `/^\d{6,14}$/.test(pro)` of
`buildFmsMap` in `check-status.js`: 6 to 14 characters, all decimal digits
(expressed over the character list so that it evaluates by kernel
reduction). -/
def isProFormat (s : String) : Bool :=
  decide (6 ≤ s.data.length) && decide (s.data.length ≤ 14) &&
    s.data.all Char.isDigit

/-- The order-reference format test `/^DO\d{6,}$/.test(order)` of
`buildFmsMap` in `check-status.js`: the literal "DO" followed by at least 6
decimal digits and nothing else. -/
def isDoFormat (s : String) : Bool :=
  match s.data with
  | 'D' :: 'O' :: rest => decide (6 ≤ rest.length) && rest.all Char.isDigit
  | _ => false

/-- The record built by `fetchFmsDetails` (identical in `check-status.js`,
`check-status-pu.js` and the unnamed drafts).  The JS field `partial` is
called `partialFlag` here. -/
structure DetailRecord where
  ok : Bool := false
  loc : Option String := none
  status : Option String := none
  substatus : Option String := none
  basicOk : Bool := false
  headOk : Bool := false
  partialFlag : Bool := false
  networkError : Bool := false
  generalError : Bool := false
deriving DecidableEq, Repr

/-- `fetchFmsDetails(token, DO)` from `check-status.js` (lines 201-261).
`basic` is the outcome of the `getshipment-orderbasic` sub-call (carrying the
parsed `current_location`), `head` the outcome of the
`getshipment-orderbasic-headinfo` sub-call (carrying the parsed
`order_status_describe` / `order_sub_status_describe` pair). -/
def fetchFmsDetails (basic : Outcome (Option String))
    (head : Outcome (Option String × Option String)) : DetailRecord :=
  let loc := match basic with | .ok v => v | _ => none
  let basicOk := basic.isOk
  let statusDesc := match head with | .ok p => p.1 | _ => none
  let subStatusDesc := match head with | .ok p => p.2 | _ => none
  let headOk := head.isOk
  let networkError := basic.isTypeErr || head.isTypeErr
  let generalError := basic.isGenErr || head.isGenErr
  if networkError then
    { ok := false, loc := none, status := none, substatus := none,
      basicOk := basicOk, headOk := headOk, networkError := true,
      generalError := false, partialFlag := false }
  else if !basicOk && !headOk && generalError then
    { ok := false, loc := none, status := none, substatus := none,
      basicOk := basicOk, headOk := headOk, networkError := false,
      generalError := true, partialFlag := false }
  else
    { ok := basicOk || headOk, loc := loc, status := statusDesc,
      substatus := subStatusDesc, basicOk := basicOk, headOk := headOk,
      partialFlag := xor basicOk headOk, networkError := false,
      generalError := false }

/-- One row of a TMS trace response (`get_tms_trace.php`), with the fields the
code reads. -/
structure TmsRow where
  tms_order_pro : Option String := none
  tms_order_id : Option String := none
  wa2_code : Option String := none
  tms_order_stage : Option String := none
  tms_order_status : Option String := none
deriving DecidableEq, Repr

/-- The parsed JSON of a TMS trace response.  The code probes, in order: the
response itself as an array, then `j.data`, `j.rows`, `j.result`. -/
structure TraceJson where
  topArray : Option (List TmsRow) := none
  dataRows : Option (List TmsRow) := none
  rowsRows : Option (List TmsRow) := none
  resultRows : Option (List TmsRow) := none
deriving DecidableEq, Repr

/-- The `let rows = ...` else-if chain of `tmsTraceForPro`
(`check-status.js` lines 337-341). -/
def extractTraceRows (j : TraceJson) : Option (List TmsRow) :=
  jsOr j.topArray (jsOr j.dataRows (jsOr j.rowsRows j.resultRows))

/-- The value returned by `tmsTraceForPro`: either `{ok:false, notFound:true}`
or `{ok:true, ...}` with the matched row's fields. -/
structure TraceRaw where
  ok : Bool := false
  notFound : Bool := false
  orderId : Option String := none
  loc : Option String := none
  status : Option String := none
  substatus : Option String := none
deriving DecidableEq, Repr

/-- `tmsTraceForPro(auth, pro)` from `check-status.js` (lines 314-354), given
the parsed response `j` of its single trace request.  Mirrors
`rows.find(rw => String(rw.tms_order_pro ?? "").trim() === String(pro)) || rows[0]`. -/
def tmsTraceForPro (pro : String) (j : TraceJson) : TraceRaw :=
  match (extractTraceRows j).getD [] with
  | [] => { ok := false, notFound := true }
  | r0 :: rs =>
    let row := ((r0 :: rs).find? (fun rw => clean rw.tms_order_pro == pro)).getD r0
    { ok := true, orderId := row.tms_order_id, loc := row.wa2_code,
      status := row.tms_order_stage, substatus := row.tms_order_status }

/-- One item of an FMS shipment-order search response, with the fields the
various `buildFmsMap` variants read. -/
structure FmsItem where
  tracking_no : Option String := none
  trackingNo : Option String := none
  order_no : Option String := none
  orderNo : Option String := none
  reference5 : Option String := none
  pu_no : Option String := none
  puNo : Option String := none
deriving DecidableEq, Repr

/-- The parsed JSON of an FMS search response: the code probes
`searchJson.items` then `searchJson.data.items`. -/
structure SearchJson where
  items : Option (List FmsItem) := none
  dataItems : Option (List FmsItem) := none
deriving DecidableEq, Repr

/-- The item-extraction preamble shared by every `buildFmsMap` variant. -/
def extractItems (sj : SearchJson) : List FmsItem :=
  match sj.items with
  | some l => l
  | none =>
    match sj.dataItems with
    | some l => l
    | none => []

/-- Loop body of `buildFmsMap` in `check-status.js` (lines 191-197): a row is
inserted only if the tracking number matches `^\d{6,14}$` and the order
reference matches `^DO\d{6,}$`. -/
def buildFmsMapStep (map : List (String × String)) (it : FmsItem) :
    List (String × String) :=
  let pro := clean (jsOr it.tracking_no it.trackingNo)
  let order := clean (jsOr it.order_no it.orderNo)
  if isProFormat pro && isDoFormat order then objSet map pro order else map

/-- `buildFmsMap(searchJson)` from `check-status.js` (lines 186-199). -/
def buildFmsMap (sj : SearchJson) : List (String × String) :=
  (extractItems sj).foldl buildFmsMapStep []

/-- `buildFmsMap(searchJson)` from `check-status-pro.js` (lines 192-214):
returns the `mapByPro` and `proToPu` pair; rows only need a non-empty
tracking number and a non-empty order reference (no format tests). -/
def buildFmsMapPro (sj : SearchJson) :
    List (String × String) × List (String × String) :=
  (extractItems sj).foldl
    (fun acc it =>
      let pro := clean (jsOr it.tracking_no it.trackingNo)
      let dord := clean (jsOr it.order_no it.orderNo)
      let pu := clean (jsOr it.reference5 (jsOr it.pu_no it.puNo))
      if pro == "" || dord == "" then acc
      else
        (objSet acc.1 pro dord,
         if pu == "" then acc.2 else objSet acc.2 pro pu))
    ([], [])

/-- The parsed JSON of a TMS login response, with the fields `authTms`
probes. -/
structure TmsLoginJson where
  UserID : Option String := none
  user_id : Option String := none
  UserToken : Option String := none
  userToken : Option String := none
deriving DecidableEq, Repr

/-- The session object returned by `authTms`. -/
structure TmsAuth where
  userId : String
  token : String
deriving DecidableEq, Repr

/-- Outcome of the `tmsChangeGroup` call: the fetch resolved with an ok
status, resolved with a non-ok status (only a `console.warn`), or rejected at
transport level (the rejection propagates out of `tmsChangeGroup`). -/
inductive GroupOutcome where
  | httpOk
  | httpErr
  | transportErr
deriving DecidableEq, Repr

/-- `authTms()` from `check-status.js` (lines 266-292).  `login` is the
outcome of the login POST: `Except.error` when the fetch rejected or returned
a non-ok status (both throw out of `authTms`), `Except.ok j` when a response
was parsed (a parse failure yields the empty object, i.e. all fields null).
After extracting a truthy UserID/UserToken it awaits `tmsChangeGroup`. -/
def authTms (login : Except Unit TmsLoginJson) (group : GroupOutcome) :
    Except Unit TmsAuth :=
  match login with
  | .error e => .error e
  | .ok j =>
    let uid := jsOr j.UserID j.user_id
    let token := jsOr j.UserToken j.userToken
    if !jsTruthy uid || !jsTruthy token then .error ()
    else
      match group with
      | .transportErr => .error ()
      | _ => .ok { userId := uid.getD "", token := token.getD "" }

/-- Tags for the outbound calls `authTms` makes. -/
inductive TmsCall where
  | loginCall
  | groupCall
deriving DecidableEq, Repr

/-- The sequence of outbound calls `authTms` performs: the login POST always,
and the group-switch POST exactly when a truthy UserID/UserToken pair was
extracted (the `await tmsChangeGroup(uid, token)` line is reached whatever
that call's own outcome). -/
def authTmsCalls (login : Except Unit TmsLoginJson) (_group : GroupOutcome) :
    List TmsCall :=
  match login with
  | .error _ => [.loginCall]
  | .ok j =>
    if !jsTruthy (jsOr j.UserID j.user_id)
        || !jsTruthy (jsOr j.UserToken j.userToken) then [.loginCall]
    else [.loginCall, .groupCall]

/-- The FMS half of one result of `checkAll` in `check-status.js`: the
`fetchFmsDetails` record (or the inline no-DO record) with `DO` and `hasDO`
attached. -/
structure FmsResult extends DetailRecord where
  hasDO : Bool := false
  orderDO : Option String := none
deriving DecidableEq, Repr

/-- The TMS half of one result of `checkAll` in `check-status.js`. -/
structure TmsResult where
  attempted : Bool := false
  ok : Bool := false
  notFound : Bool := false
  orderId : Option String := none
  loc : Option String := none
  status : Option String := none
  substatus : Option String := none
  networkError : Bool := false
  generalError : Bool := false
deriving DecidableEq, Repr

/-- One element of the `results` array of `checkAll` in `check-status.js`:
`{ pro, fms, tms }`. -/
structure CheckResult where
  pro : String
  fms : FmsResult
  tms : TmsResult
deriving DecidableEq, Repr

/-- The environment of one `checkAll` invocation in `check-status.js`: which
credentials are present, the outcome of `authFms` and of `fmsSearchOrders`,
the result of the `authTms` try/catch (`none` when it threw), and per-order /
per-pro oracles for the detail and trace sub-calls. -/
structure Env where
  credsPresent : Bool := true
  fmsAuth : Except Unit String := Except.ok "token"
  search : Except Unit SearchJson := Except.ok {}
  tmsAuth : Option TmsAuth := none
  basic : String → Outcome (Option String) := fun _ => Outcome.genErr
  head : String → Outcome (Option String × Option String) := fun _ => Outcome.genErr
  trace : String → Outcome TraceJson := fun _ => Outcome.genErr

/-- One iteration of the `for (const pro of pros)` loop of `checkAll`
(`check-status.js` lines 74-135): build the FMS result from the resolved DO
(the JS `if (!DO)` treats both a missing and an empty mapping as unresolved),
then the TMS result under the `tmsAuth && tmsAuth.userId && tmsAuth.token`
guard, classifying a thrown `TypeError` as `networkError` and any other throw
as `generalError`. -/
def checkOnePro (env : Env) (fmsMap : List (String × String))
    (tmsAuth : Option TmsAuth) (pro : String) : CheckResult :=
  let dord := (objGet fmsMap pro).getD ""
  let fmsRes : FmsResult :=
    if dord == "" then
      { hasDO := false, orderDO := none }
    else
      { toDetailRecord := fetchFmsDetails (env.basic dord) (env.head dord),
        hasDO := true, orderDO := some dord }
  let tmsRes : TmsResult :=
    match tmsAuth with
    | some a =>
      if a.userId != "" && a.token != "" then
        match env.trace pro with
        | .ok j =>
          let raw := tmsTraceForPro pro j
          if raw.notFound then { attempted := true, notFound := true }
          else if !raw.ok then { attempted := true, generalError := true }
          else
            { attempted := true, ok := true, orderId := raw.orderId,
              loc := raw.loc, status := raw.status, substatus := raw.substatus }
        | .typeErr => { attempted := true, networkError := true }
        | .genErr => { attempted := true, generalError := true }
      else {}
    | none => {}
  { pro := pro, fms := fmsRes, tms := tmsRes }

/-- `checkAll(pros)` from `check-status.js` (lines 56-138).  Returns the
result list together with the list of `input_filter_pro` values of the trace
requests it issued (one `tmsTraceForPro` request per pro whenever the
`tmsAuth` guard holds).  Throws when credentials are missing, when `authFms`
throws, or when `fmsSearchOrders` throws; an `authTms` failure is caught. -/
def checkAll (pros : List String) (env : Env) :
    Except Unit (List CheckResult × List String) := do
  if !env.credsPresent then throw ()
  let _fmsToken ← env.fmsAuth
  let searchJson ← env.search
  let fmsMap := buildFmsMap searchJson
  let tmsAuth := env.tmsAuth
  let results := pros.map (checkOnePro env fmsMap tmsAuth)
  let traceLog :=
    match tmsAuth with
    | some a => if a.userId != "" && a.token != "" then pros else []
    | none => []
  return (results, traceLog)

/-- The `input_filter_pro` value of the single batched trace request built by
`tmsTraceForPros` (`check-status-pro.js` lines 235-263, and the unnamed
drafts): `pros.map(cleanPro).join("\n")`. -/
def tmsTraceForProsFilter (pros : List String) : String :=
  String.intercalate "\n" (pros.map jsTrim)

/-- The list of `input_filter_pro` values of the trace requests issued by one
`tmsTraceForPros` call: the function performs exactly one fetch against the
trace endpoint, whatever the size of `pros`. -/
def tmsTraceForProsRequests (pros : List String) : List String :=
  [tmsTraceForProsFilter pros]

/-- State of one runner of `runWithConcurrency` (`check-status-pu.js` lines
10-28): about to execute `const current = index++`, awaiting the worker for
item `i`, or returned. -/
inductive RState where
  | claiming : RState
  | working : Nat → RState
  | rdone : RState
deriving DecidableEq, Repr

/-- Whether a runner currently has a worker invocation in flight. -/
def RState.isWorkingB : RState → Bool
  | .working _ => true
  | _ => false

/-- Whether a runner has returned. -/
def RState.isDoneB : RState → Bool
  | .rdone => true
  | _ => false

/-- Interleaving state of one `runWithConcurrency(items, limit, worker)`
call: the shared `index` counter, the runner states, and the `results`
array (`new Array(items.length)`, a slot is `none` until assigned). -/
structure RunState (β : Type) where
  nextIndex : Nat
  runners : List RState
  results : List (Option β)
deriving DecidableEq, Repr

/-- Initial state of `runWithConcurrency`: `index = 0`, `Math.min(limit,
items.length)` runners started on `next()`, all result slots unassigned. -/
def initRun (β : Type) (n limit : Nat) : RunState β :=
  { nextIndex := 0,
    runners := List.replicate (min limit n) RState.claiming,
    results := List.replicate n none }

/-- One scheduler step: advance runner `r`.  A claiming runner executes
`const current = index++; if (current >= items.length) return;` and either
returns or starts `worker(items[current], current)`; a working runner's await
resolves, it assigns `results[current]` and re-enters `next()`.  Advancing a
returned or non-existent runner changes nothing. -/
def stepRun {α β : Type} (items : List α) (dflt : α) (worker : α → Nat → β)
    (s : RunState β) (r : Nat) : RunState β :=
  match s.runners[r]? with
  | some RState.claiming =>
    let current := s.nextIndex
    if items.length ≤ current then
      { s with nextIndex := current + 1, runners := s.runners.set r RState.rdone }
    else
      { s with nextIndex := current + 1,
               runners := s.runners.set r (RState.working current) }
  | some (RState.working i) =>
    { s with results := s.results.set i (some (worker (items.getD i dflt) i)),
             runners := s.runners.set r RState.claiming }
  | _ => s

/-- `runWithConcurrency(items, limit, worker)` under an arbitrary
interleaving: the state reached after the scheduler choices `choices`
(each choice names the runner that advances). -/
def runWithConcurrency {α β : Type} (items : List α) (dflt : α)
    (worker : α → Nat → β) (limit : Nat) (choices : List Nat) : RunState β :=
  choices.foldl (stepRun items dflt worker) (initRun β items.length limit)

/-- Number of worker invocations currently in flight. -/
def countWorking {β : Type} (s : RunState β) : Nat :=
  (s.runners.filter RState.isWorkingB).length

/-- Whether the `Promise.all(runners)` has resolved: every runner returned. -/
def isTerminal {β : Type} (s : RunState β) : Bool :=
  s.runners.all RState.isDoneB

/-- Execution invariant of the `runWithConcurrency` interleaving model: the
runner pool has fixed size `min limit n`; the result array keeps its size;
every in-flight index was claimed and is in range; every assigned slot holds
the worker's value for that index; every claimed in-range index is assigned
or in flight; and a runner only returns after `index` has passed the end. -/
structure RunInv {α β : Type} (items : List α) (dflt : α)
    (worker : α → Nat → β) (limit : Nat) (s : RunState β) : Prop where
  runners_len : s.runners.length = min limit items.length
  results_len : s.results.length = items.length
  working_lt : ∀ (r i : Nat), s.runners[r]? = some (RState.working i) →
    i < items.length ∧ i < s.nextIndex
  results_val : ∀ (i : Nat) (v : β), s.results[i]? = some (some v) →
    v = worker (items.getD i dflt) i
  covered : ∀ (i : Nat), i < s.nextIndex → i < items.length →
    (∃ v, s.results[i]? = some (some v)) ∨
    (∃ r : Nat, s.runners[r]? = some (RState.working i))
  done_next : ∀ (r : Nat), s.runners[r]? = some RState.rdone →
    items.length ≤ s.nextIndex

/-- The initial state satisfies the invariant. -/
theorem runInv_init {α β : Type} (items : List α) (dflt : α)
    (worker : α → Nat → β) (limit : Nat) :
    RunInv items dflt worker limit (initRun β items.length limit) := by
  refine ⟨by simp [initRun], by simp [initRun], ?_, ?_, ?_, ?_⟩
  · intro r i h
    simp only [initRun, List.getElem?_replicate] at h
    split at h <;> simp_all
  · intro i v h
    simp only [initRun, List.getElem?_replicate] at h
    split at h <;> simp_all
  · intro i hi
    simp [initRun] at hi
  · intro r h
    simp only [initRun, List.getElem?_replicate] at h
    split at h <;> simp_all

/-- Every scheduler step preserves the invariant. -/
theorem runInv_step {α β : Type} {items : List α} {dflt : α}
    {worker : α → Nat → β} {limit : Nat} {s : RunState β}
    (hinv : RunInv items dflt worker limit s) (r : Nat) :
    RunInv items dflt worker limit (stepRun items dflt worker s r) := by
  obtain ⟨hrl, hsl, hwlt, hval, hcov, hdn⟩ := hinv
  cases hm : s.runners[r]? with
  | none =>
    simpa [stepRun, hm] using
      (⟨hrl, hsl, hwlt, hval, hcov, hdn⟩ : RunInv items dflt worker limit s)
  | some st =>
    have hrlt : r < s.runners.length := (List.getElem?_eq_some.mp hm).1
    cases st with
    | claiming =>
      by_cases hc : items.length ≤ s.nextIndex
      · simp only [stepRun, hm, if_pos hc]
        refine ⟨by simpa [List.length_set] using hrl, hsl, ?_, hval, ?_, ?_⟩
        · intro r' i h
          by_cases hr : r = r'
          · subst hr
            rw [List.getElem?_set_self hrlt] at h
            cases h
          · rw [List.getElem?_set_ne hr] at h
            have := hwlt r' i h
            exact ⟨this.1, Nat.lt_succ_of_lt this.2⟩
        · intro i hi hin
          have hi' : i < s.nextIndex := Nat.lt_of_lt_of_le hin hc
          rcases hcov i hi' hin with hres | ⟨r', hr'⟩
          · exact Or.inl hres
          · refine Or.inr ⟨r', ?_⟩
            have hr : r ≠ r' := by
              intro he; subst he; rw [hm] at hr'; cases hr'
            rw [List.getElem?_set_ne hr]
            exact hr'
        · intro r' _
          exact Nat.le_succ_of_le hc
      · simp only [stepRun, hm, if_neg hc]
        have hcur : s.nextIndex < items.length := Nat.lt_of_not_le hc
        refine ⟨by simpa [List.length_set] using hrl, hsl, ?_, hval, ?_, ?_⟩
        · intro r' i h
          by_cases hr : r = r'
          · subst hr
            rw [List.getElem?_set_self hrlt] at h
            cases h
            exact ⟨hcur, Nat.lt_succ_self _⟩
          · rw [List.getElem?_set_ne hr] at h
            have := hwlt r' i h
            exact ⟨this.1, Nat.lt_succ_of_lt this.2⟩
        · intro i hi hin
          by_cases hie : i = s.nextIndex
          · subst hie
            exact Or.inr ⟨r, by rw [List.getElem?_set_self hrlt]⟩
          · have hi' : i < s.nextIndex :=
              Nat.lt_of_le_of_ne (Nat.le_of_lt_succ hi) hie
            rcases hcov i hi' hin with hres | ⟨r', hr'⟩
            · exact Or.inl hres
            · refine Or.inr ⟨r', ?_⟩
              have hr : r ≠ r' := by
                intro he; subst he; rw [hm] at hr'; cases hr'
              rw [List.getElem?_set_ne hr]
              exact hr'
        · intro r' h
          by_cases hr : r = r'
          · subst hr
            rw [List.getElem?_set_self hrlt] at h
            cases h
          · rw [List.getElem?_set_ne hr] at h
            exact Nat.le_succ_of_le (hdn r' h)
    | working i0 =>
      simp only [stepRun, hm]
      have hi0 := hwlt r i0 hm
      have hi0r : i0 < s.results.length := by rw [hsl]; exact hi0.1
      refine ⟨by simpa [List.length_set] using hrl,
        by simpa [List.length_set] using hsl, ?_, ?_, ?_, ?_⟩
      · intro r' i h
        by_cases hr : r = r'
        · subst hr
          rw [List.getElem?_set_self hrlt] at h
          cases h
        · rw [List.getElem?_set_ne hr] at h
          exact hwlt r' i h
      · intro i v h
        by_cases hie : i0 = i
        · subst hie
          rw [List.getElem?_set_self hi0r] at h
          cases h
          rfl
        · rw [List.getElem?_set_ne hie] at h
          exact hval i v h
      · intro i hi hin
        rcases hcov i hi hin with ⟨v, hv⟩ | ⟨r', hr'⟩
        · by_cases hie : i0 = i
          · subst hie
            exact Or.inl ⟨_, List.getElem?_set_self hi0r⟩
          · exact Or.inl ⟨v, by rw [List.getElem?_set_ne hie]; exact hv⟩
        · by_cases hr : r = r'
          · subst hr
            rw [hm] at hr'
            cases hr'
            exact Or.inl ⟨_, List.getElem?_set_self hi0r⟩
          · exact Or.inr ⟨r', by rw [List.getElem?_set_ne hr]; exact hr'⟩
      · intro r' h
        by_cases hr : r = r'
        · subst hr
          rw [List.getElem?_set_self hrlt] at h
          cases h
        · rw [List.getElem?_set_ne hr] at h
          exact hdn r' h
    | rdone =>
      simpa [stepRun, hm] using
        (⟨hrl, hsl, hwlt, hval, hcov, hdn⟩ : RunInv items dflt worker limit s)

/-- The invariant holds along any scheduler trace. -/
theorem runInv_foldl {α β : Type} {items : List α} {dflt : α}
    {worker : α → Nat → β} {limit : Nat} (choices : List Nat)
    (s : RunState β) (h : RunInv items dflt worker limit s) :
    RunInv items dflt worker limit
      (choices.foldl (stepRun items dflt worker) s) := by
  induction choices generalizing s with
  | nil => exact h
  | cons c cs ih => exact ih _ (runInv_step h c)

/-- The invariant holds in every reachable state of `runWithConcurrency`. -/
theorem runInv_run {α β : Type} (items : List α) (dflt : α)
    (worker : α → Nat → β) (limit : Nat) (choices : List Nat) :
    RunInv items dflt worker limit
      (runWithConcurrency items dflt worker limit choices) :=
  runInv_foldl choices _ (runInv_init items dflt worker limit)

/-- A JS object read after a JS object write: the written key reads back the
written value, other keys are unaffected. -/
theorem objGet_objSet (m : List (String × String)) (k v k' : String) :
    objGet (objSet m k v) k' = if k == k' then some v else objGet m k' := by
  induction m with
  | nil => simp [objSet, objGet]
  | cons p rest ih =>
    obtain ⟨pk, pv⟩ := p
    by_cases hpk : pk = k
    · subst hpk
      by_cases hk : pk = k'
      · subst hk
        simp [objSet, objGet]
      · have h2 : (pk == k') = false := by simpa using hk
        simp [objSet, objGet, h2]
    · have h1 : (pk == k) = false := by simpa using hpk
      simp only [objSet, h1, Bool.false_eq_true, if_false, objGet]
      by_cases hk2 : pk = k'
      · subst hk2
        have h2 : (k == pk) = false := by
          simpa using fun he => hpk he.symm
        simp [objGet, h2]
      · have h2 : (pk == k') = false := by simpa using hk2
        simp [objGet, h2, ih]

/-- Fold invariant of `buildFmsMap`: any entry of the accumulated map passes
both format tests, provided the accumulator's entries already do. -/
theorem buildFmsMap_fold_valid (l : List FmsItem) (m : List (String × String))
    (hm : ∀ (k v : String), objGet m k = some v →
      isProFormat k = true ∧ isDoFormat v = true) :
    ∀ (k v : String), objGet (l.foldl buildFmsMapStep m) k = some v →
      isProFormat k = true ∧ isDoFormat v = true := by
  induction l generalizing m with
  | nil => exact hm
  | cons it rest ih =>
    refine ih (buildFmsMapStep m it) ?_
    intro k v h
    simp only [buildFmsMapStep] at h
    by_cases hf : (isProFormat (clean (jsOr it.tracking_no it.trackingNo)) &&
        isDoFormat (clean (jsOr it.order_no it.orderNo))) = true
    · rw [if_pos hf, objGet_objSet] at h
      by_cases he : clean (jsOr it.tracking_no it.trackingNo) = k
      · have hb : (clean (jsOr it.tracking_no it.trackingNo) == k) = true := by
          simpa using he
        rw [hb, if_pos rfl] at h
        rw [Bool.and_eq_true] at hf
        cases h
        exact ⟨he ▸ hf.1, hf.2⟩
      · have hb : (clean (jsOr it.tracking_no it.trackingNo) == k) = false := by
          simpa using he
        rw [hb] at h
        simp only [Bool.false_eq_true, if_false] at h
        exact hm k v h
    · rw [if_neg hf] at h
      exact hm k v h

/-- Evaluation of `checkAll` when credentials are present and the FMS auth
and search calls succeed: the result list is the per-pro loop mapped over the
input, and the trace-request log is one request per pro exactly when the TMS
session guard holds. -/
theorem checkAll_eq (pros : List String) (env : Env) (tok : String)
    (sj : SearchJson) (hc : env.credsPresent = true)
    (hf : env.fmsAuth = Except.ok tok) (hs : env.search = Except.ok sj) :
    checkAll pros env = Except.ok
      (pros.map (checkOnePro env (buildFmsMap sj) env.tmsAuth),
       match env.tmsAuth with
       | some a => if a.userId != "" && a.token != "" then pros else []
       | none => []) := by
  simp only [checkAll, hc, hf, hs]
  rfl

/-- C2: for every invocation of `fetchFmsDetails` and every combination of
the two sub-call outcomes, the returned record satisfies exactly one of
`networkError = true`, `generalError = true`, or `ok = true`: the
classification is total and the three cases are mutually exclusive. -/
theorem fetchFmsDetails_classification_total (basic : Outcome (Option String))
    (head : Outcome (Option String × Option String)) :
    ((fetchFmsDetails basic head).networkError = true ∧
     (fetchFmsDetails basic head).generalError = false ∧
     (fetchFmsDetails basic head).ok = false) ∨
    ((fetchFmsDetails basic head).networkError = false ∧
     (fetchFmsDetails basic head).generalError = true ∧
     (fetchFmsDetails basic head).ok = false) ∨
    ((fetchFmsDetails basic head).networkError = false ∧
     (fetchFmsDetails basic head).generalError = false ∧
     (fetchFmsDetails basic head).ok = true) := by
  cases basic <;> cases head <;>
    simp [fetchFmsDetails, Outcome.isOk, Outcome.isTypeErr, Outcome.isGenErr]

/-- C3 counterexample: when the basic sub-call fails at connectivity level
and the head sub-call succeeds, exactly one of the two sub-fetches succeeded
but the returned record has `partial = false` (the `networkError` branch
returns before the xor is computed), contradicting the claim's "including
those where the other sub-call failed at connectivity level". -/
theorem fetchFmsDetails_partialFlag_cx :
    (fetchFmsDetails Outcome.typeErr
      (Outcome.ok (some "In Transit", none))).basicOk = false ∧
    (fetchFmsDetails Outcome.typeErr
      (Outcome.ok (some "In Transit", none))).headOk = true ∧
    (fetchFmsDetails Outcome.typeErr
      (Outcome.ok (some "In Transit", none))).partialFlag = false :=
  ⟨rfl, rfl, rfl⟩

/-- C3 amended: `partial` equals (exactly one sub-fetch succeeded) AND
(neither sub-call raised a connectivity-level failure); in `networkError`
records `partial` is always false even when exactly one sub-fetch
succeeded. -/
theorem fetchFmsDetails_partialFlag_law (basic : Outcome (Option String))
    (head : Outcome (Option String × Option String)) :
    (fetchFmsDetails basic head).partialFlag =
      (xor (fetchFmsDetails basic head).basicOk
           (fetchFmsDetails basic head).headOk
        && !(fetchFmsDetails basic head).networkError) := by
  cases basic <;> cases head <;>
    simp [fetchFmsDetails, Outcome.isOk, Outcome.isTypeErr, Outcome.isGenErr]

/-- C4 counterexample: when the basic sub-call succeeds and the head
sub-call fails at connectivity level, the record has `networkError = true`
but `basicOk = true`, so not every other field is null or false. -/
theorem fetchFmsDetails_networkError_cx :
    (fetchFmsDetails (Outcome.ok (some "DALLAS-TX"))
      (Outcome.typeErr : Outcome (Option String × Option String))).networkError
        = true ∧
    (fetchFmsDetails (Outcome.ok (some "DALLAS-TX"))
      (Outcome.typeErr : Outcome (Option String × Option String))).basicOk
        = true :=
  ⟨rfl, rfl⟩

/-- C4 amended: if either sub-call raises a connectivity-level failure the
record has `networkError = true` and `ok`, `loc`, `status`, `substatus`,
`partial` and `generalError` all null or false, while `basicOk` and `headOk`
retain the individual sub-call outcomes (so one may be true when the other
sub-call succeeded). -/
theorem fetchFmsDetails_networkError_law (basic : Outcome (Option String))
    (head : Outcome (Option String × Option String))
    (h : basic = Outcome.typeErr ∨ head = Outcome.typeErr) :
    (fetchFmsDetails basic head).networkError = true ∧
    (fetchFmsDetails basic head).ok = false ∧
    (fetchFmsDetails basic head).loc = none ∧
    (fetchFmsDetails basic head).status = none ∧
    (fetchFmsDetails basic head).substatus = none ∧
    (fetchFmsDetails basic head).partialFlag = false ∧
    (fetchFmsDetails basic head).generalError = false ∧
    (fetchFmsDetails basic head).basicOk = basic.isOk ∧
    (fetchFmsDetails basic head).headOk = head.isOk := by
  rcases h with h | h
  · subst h
    cases head <;>
      simp [fetchFmsDetails, Outcome.isOk, Outcome.isTypeErr, Outcome.isGenErr]
  · subst h
    cases basic <;>
      simp [fetchFmsDetails, Outcome.isOk, Outcome.isTypeErr, Outcome.isGenErr]

/-- C4 amended, witness: the basic sub-call succeeded with a location while
the head sub-call timed out; the record is classified `networkError` with
`basicOk` retained. -/
theorem fetchFmsDetails_networkError_law_witness :
    (fetchFmsDetails (Outcome.ok (some "X"))
      (Outcome.typeErr : Outcome (Option String × Option String))).networkError
        = true ∧
    (fetchFmsDetails (Outcome.ok (some "X")) Outcome.typeErr).ok = false ∧
    (fetchFmsDetails (Outcome.ok (some "X")) Outcome.typeErr).loc = none ∧
    (fetchFmsDetails (Outcome.ok (some "X")) Outcome.typeErr).status = none ∧
    (fetchFmsDetails (Outcome.ok (some "X")) Outcome.typeErr).substatus = none ∧
    (fetchFmsDetails (Outcome.ok (some "X")) Outcome.typeErr).partialFlag = false ∧
    (fetchFmsDetails (Outcome.ok (some "X")) Outcome.typeErr).generalError = false ∧
    (fetchFmsDetails (Outcome.ok (some "X")) Outcome.typeErr).basicOk
      = (Outcome.ok (some "X")).isOk ∧
    (fetchFmsDetails (Outcome.ok (some "X")) Outcome.typeErr).headOk
      = (Outcome.typeErr : Outcome (Option String × Option String)).isOk :=
  fetchFmsDetails_networkError_law (Outcome.ok (some "X")) Outcome.typeErr
    (Or.inr rfl)

/-- The stray row used to exhibit the first-row fallback of
`tmsTraceForPro`. -/
def strayRow : TmsRow :=
  { tms_order_pro := some "999999", tms_order_id := some "OID-1",
    wa2_code := some "LAX", tms_order_stage := some "STG",
    tms_order_status := some "STS" }

/-- C10: when the trace response contains a non-empty row list with no row
whose `tms_order_pro` matches the queried pro, `tmsTraceForPro` falls back to
the first row (`rows.find(...) || rows[0]`) and returns `ok = true` with that
row's fields instead of reporting `notFound`. -/
theorem tmsTraceForPro_firstRowFallback :
    clean strayRow.tms_order_pro ≠ "123456" ∧
    tmsTraceForPro "123456" { topArray := some [strayRow] } =
      { ok := true, notFound := false, orderId := some "OID-1",
        loc := some "LAX", status := some "STG", substatus := some "STS" } := by
  refine ⟨by decide, rfl⟩

/-- C1: whenever `checkAll` runs to completion (credentials present, FMS auth
and search succeeded — an FMS-side systemic failure is fatal by design), the
result list has exactly the length of the input batch and the result at each
position carries the pro at the same position of the input, whatever the
per-identifier detail and trace outcomes and whether or not the TMS login
succeeded. -/
theorem checkAll_preserves_batch (pros : List String) (env : Env)
    (tok : String) (sj : SearchJson) (hc : env.credsPresent = true)
    (hf : env.fmsAuth = Except.ok tok) (hs : env.search = Except.ok sj) :
    ∃ rs log, checkAll pros env = Except.ok (rs, log) ∧
      rs.length = pros.length ∧
      ∀ (i : Nat) (hi : i < rs.length) (hp : i < pros.length),
        (rs.get ⟨i, hi⟩).pro = pros.get ⟨i, hp⟩ := by
  refine ⟨_, _, checkAll_eq pros env tok sj hc hf hs, by simp, ?_⟩
  intro i hi hp
  simp only [List.get_eq_getElem, List.getElem_map]
  rfl

/-- C1 witness: a singleton batch under an environment where FMS auth and
search succeed and TMS auth failed. -/
theorem checkAll_preserves_batch_witness :
    ∃ rs log, checkAll ["123456"] {} = Except.ok (rs, log) ∧
      rs.length = (["123456"] : List String).length ∧
      ∀ (i : Nat) (hi : i < rs.length)
        (hp : i < (["123456"] : List String).length),
        (rs.get ⟨i, hi⟩).pro = (["123456"] : List String).get ⟨i, hp⟩ :=
  checkAll_preserves_batch ["123456"] {} "token" {} rfl rfl rfl

/-- The fms-side projection and the pro of one loop iteration do not depend
on the TMS session or the trace oracle. -/
theorem checkOnePro_fms_independent (e1 e2 : Env)
    (fmsMap : List (String × String)) (t1 t2 : Option TmsAuth) (pro : String)
    (hb : e2.basic = e1.basic) (hh : e2.head = e1.head) :
    (checkOnePro e2 fmsMap t2 pro).pro = (checkOnePro e1 fmsMap t1 pro).pro ∧
    (checkOnePro e2 fmsMap t2 pro).fms = (checkOnePro e1 fmsMap t1 pro).fms := by
  simp [checkOnePro, hb, hh]

/-- C5 counterexample: with a successful TMS login but a failing
per-identifier trace query, the trace-side result of `checkAll` in
`check-status.js` has `attempted = true` (with `generalError = true`), not
`attempted = false` as the claim states for a failing trace query. -/
theorem traceQueryFail_attempted_cx :
    Except.map (fun p => p.1.map fun r => r.tms.attempted)
      (checkAll ["123456"]
        { tmsAuth := some { userId := "1", token := "t" } }) =
      Except.ok [true] ∧
    Except.map (fun p => p.1.map fun r => r.tms.generalError)
      (checkAll ["123456"]
        { tmsAuth := some { userId := "1", token := "t" } }) =
      Except.ok [true] :=
  ⟨rfl, rfl⟩

/-- C5 amended: if the Trace-System login fails (`authTms` threw, so the
cached session is null), `checkAll` still returns a full result list in which
every identifier's trace-side result has `attempted = false`, and the pro and
FMS sides of the results are identical to those of any run with the same FMS
environment — in particular one in which Trace-System is never queried.  (A
failure of a per-identifier trace query instead yields `attempted = true`
with an error flag.) -/
theorem tmsLoginFail_degrades (pros : List String) (e1 e2 : Env)
    (tok : String) (sj : SearchJson)
    (hA : e1.tmsAuth = none)
    (hc1 : e1.credsPresent = true) (hf1 : e1.fmsAuth = Except.ok tok)
    (hs1 : e1.search = Except.ok sj)
    (hc2 : e2.credsPresent = true) (hf2 : e2.fmsAuth = Except.ok tok)
    (hs2 : e2.search = Except.ok sj)
    (hb : e2.basic = e1.basic) (hh : e2.head = e1.head) :
    ∃ rs1 log1 rs2 log2,
      checkAll pros e1 = Except.ok (rs1, log1) ∧
      checkAll pros e2 = Except.ok (rs2, log2) ∧
      rs1.length = pros.length ∧
      (∀ r ∈ rs1, r.tms.attempted = false) ∧
      rs2.map (fun r => (r.pro, r.fms)) = rs1.map (fun r => (r.pro, r.fms)) := by
  refine ⟨_, _, _, _, checkAll_eq pros e1 tok sj hc1 hf1 hs1,
    checkAll_eq pros e2 tok sj hc2 hf2 hs2, by simp, ?_, ?_⟩
  · intro r hr
    rw [hA] at hr
    obtain ⟨p, _, rfl⟩ := List.mem_map.mp hr
    rfl
  · rw [hA, List.map_map, List.map_map]
    refine List.map_congr_left ?_
    intro p _
    have := checkOnePro_fms_independent e1 e2 (buildFmsMap sj) none
      e2.tmsAuth p hb hh
    simp only [Function.comp]
    exact Prod.ext this.1 this.2

/-- C5 amended, witness: a concrete singleton batch, `e1` with failed TMS
login, `e2` with a successful TMS login whose trace queries fail. -/
theorem tmsLoginFail_degrades_witness :
    ∃ rs1 log1 rs2 log2,
      checkAll ["123456"] {} = Except.ok (rs1, log1) ∧
      checkAll ["123456"]
          { tmsAuth := some { userId := "9", token := "s" } } =
        Except.ok (rs2, log2) ∧
      rs1.length = (["123456"] : List String).length ∧
      (∀ r ∈ rs1, r.tms.attempted = false) ∧
      rs2.map (fun r => (r.pro, r.fms)) = rs1.map (fun r => (r.pro, r.fms)) :=
  tmsLoginFail_degrades ["123456"] {}
    { tmsAuth := some { userId := "9", token := "s" } } "token" {}
    rfl rfl rfl rfl rfl rfl rfl rfl rfl

/-- Environment with a usable TMS session whose per-identifier trace queries
fail; used to count the trace requests `checkAll` issues. -/
def envPerProTrace : Env := { tmsAuth := some { userId := "1", token := "t" } }

/-- C6 counterexample: for a two-element batch, `checkAll` of
`check-status.js` issues two trace requests, each carrying a single
identifier in `input_filter_pro` — not one batched request joined by a line
separator. -/
theorem checkAll_perProTraceRequests_cx :
    Except.map Prod.snd (checkAll ["111111", "222222"] envPerProTrace) =
      Except.ok ["111111", "222222"] ∧
    (["111111", "222222"] : List String).length ≠ 1 :=
  ⟨rfl, by decide⟩

/-- C6 amended: the batched trace lookup `tmsTraceForPros`
(`check-status-pro.js` and the pickup-number drafts) issues exactly one
outbound trace query whose `input_filter_pro` carries all identifiers of the
batch joined by a line separator, independent of batch size; `checkAll` of
`check-status.js`, by contrast, issues one `tmsTraceForPro` query per
identifier — its trace-request log is the whole batch when the TMS session
guard holds and empty otherwise. -/
theorem tmsTraceForPros_single_request (pros : List String) (env : Env)
    (rs : List CheckResult) (log : List String)
    (h : checkAll pros env = Except.ok (rs, log)) :
    (tmsTraceForProsRequests pros).length = 1 ∧
    tmsTraceForProsRequests pros =
      [String.intercalate "\n" (pros.map jsTrim)] ∧
    (log = pros ∨ log = []) := by
  refine ⟨rfl, rfl, ?_⟩
  cases hc : env.credsPresent with
  | false => rw [checkAll, hc] at h; cases h
  | true =>
    cases hf : env.fmsAuth with
    | error e => rw [checkAll, hc, hf] at h; cases h
    | ok tok =>
      cases hs : env.search with
      | error e =>
        rw [checkAll, hc, hf] at h
        simp only [Bool.not_true, Bool.false_eq_true, if_false] at h
        rw [hs] at h
        cases h
      | ok sj =>
        rw [checkAll_eq pros env tok sj hc hf hs] at h
        have hlog : log =
            (match env.tmsAuth with
             | some a => if a.userId != "" && a.token != "" then pros else []
             | none => []) := by
          cases h
          rfl
        rw [hlog]
        cases env.tmsAuth with
        | none => exact Or.inr rfl
        | some a =>
          by_cases hg : (a.userId != "" && a.token != "") = true
          · simp [hg]
          · rw [Bool.not_eq_true] at hg
            simp [hg]

/-- C6 amended, witness: a concrete two-element batch under an environment
with a usable TMS session. -/
theorem tmsTraceForPros_single_request_witness :
    (tmsTraceForProsRequests ["111111", "222222"]).length = 1 ∧
    tmsTraceForProsRequests ["111111", "222222"] =
      [String.intercalate "\n"
        ((["111111", "222222"] : List String).map jsTrim)] ∧
    ((["111111", "222222"] : List String) = ["111111", "222222"] ∨
      (["111111", "222222"] : List String) = []) :=
  tmsTraceForPros_single_request ["111111", "222222"] envPerProTrace
    [{ pro := "111111", fms := { hasDO := false, orderDO := none },
       tms := { attempted := true, generalError := true } },
     { pro := "222222", fms := { hasDO := false, orderDO := none },
       tms := { attempted := true, generalError := true } }]
    ["111111", "222222"] (by rfl)

/-- The concrete search response used against C7: one row whose identifier
and order-reference fields fail both format tests. -/
def sjBadFormats : SearchJson :=
  { items := some [{ tracking_no := some "abc", order_no := some "XYZ" }] }

/-- C7 counterexample: `buildFmsMap` of `check-status-pro.js` (one of the
implementations the claim covers) accepts the row `{tracking_no:"abc",
order_no:"XYZ"}` into its identifier-to-OrderReference map although the
identifier fails the 6-14-digit test and the order reference fails the
DO-pattern test: it only requires both fields to be non-empty. -/
theorem buildFmsMapPro_no_validation_cx :
    objGet (buildFmsMapPro sjBadFormats).1 "abc" = some "XYZ" ∧
    isProFormat "abc" = false ∧
    isDoFormat "XYZ" = false := by
  refine ⟨rfl, by decide, by decide⟩

/-- C7 amended: `buildFmsMap` of `check-status.js` accepts a row into the
identifier-to-OrderReference map only if the identifier matches the
6-14-digit tracking-number format and the order reference matches the
DO-plus-at-least-6-digits pattern, silently dropping all other rows; the
`buildFmsMap` of `check-status-pro.js` (and the pickup variant of the
unnamed draft) instead only requires the fields to be non-empty, with no
format validation. -/
theorem buildFmsMap_validates (sj : SearchJson) (pro order : String)
    (h : objGet (buildFmsMap sj) pro = some order) :
    isProFormat pro = true ∧ isDoFormat order = true := by
  refine buildFmsMap_fold_valid (extractItems sj) [] ?_ pro order h
  intro k v hkv
  cases hkv

/-- C7 amended, witness: a valid row is accepted and its fields pass the two
format tests. -/
theorem buildFmsMap_validates_witness :
    isProFormat "123456" = true ∧ isDoFormat "DO654321" = true :=
  buildFmsMap_validates
    { items := some [{ tracking_no := some "123456",
                       order_no := some "DO654321" }] }
    "123456" "DO654321" (by rfl)

/-- A login response carrying a usable UserID/UserToken pair. -/
def goodLogin : TmsLoginJson := { UserID := some "1", UserToken := some "t" }

/-- C8 counterexample: when the group-switch call fails at transport level
(the fetch inside `tmsChangeGroup` rejects), the rejection propagates through
`await tmsChangeGroup(uid, token)` and the overall `authTms` fails even
though login succeeded — the session is not returned.  The group call was
performed (it is in the call log). -/
theorem authTms_groupTransportFail_cx :
    authTms (Except.ok goodLogin) GroupOutcome.transportErr =
      Except.error () ∧
    authTmsCalls (Except.ok goodLogin) GroupOutcome.transportErr =
      [TmsCall.loginCall, TmsCall.groupCall] :=
  ⟨rfl, rfl⟩

/-- C8 amended: every successful `authTms` performed the set-active-group
call before returning the session, and a non-ok HTTP response from that call
is only logged — the session is returned exactly as in the all-ok run; a
transport-level rejection of the group-switch fetch, however, propagates and
fails the login. -/
theorem authTms_groupCall_httpErr_nonfatal (login : Except Unit TmsLoginJson)
    (group : GroupOutcome) (a : TmsAuth)
    (h : authTms login group = Except.ok a) :
    TmsCall.groupCall ∈ authTmsCalls login group ∧
    authTms login GroupOutcome.httpErr = Except.ok a ∧
    authTms login GroupOutcome.httpOk = Except.ok a := by
  cases login with
  | error e => cases h
  | ok j =>
    simp only [authTms] at h ⊢
    by_cases hg : (!jsTruthy (jsOr j.UserID j.user_id)
        || !jsTruthy (jsOr j.UserToken j.userToken)) = true
    · rw [if_pos hg] at h
      cases h
    · rw [Bool.not_eq_true] at hg
      simp only [hg, Bool.false_eq_true, if_false] at h ⊢
      cases group with
      | transportErr => cases h
      | httpOk =>
        cases h
        exact ⟨by simp [authTmsCalls, hg], rfl, rfl⟩
      | httpErr =>
        cases h
        exact ⟨by simp [authTmsCalls, hg], rfl, rfl⟩

/-- C8 amended, witness: a successful login followed by an HTTP-level
group-switch failure still returns the session, and the group call is in the
call log. -/
theorem authTms_groupCall_httpErr_nonfatal_witness :
    TmsCall.groupCall ∈ authTmsCalls (Except.ok goodLogin)
      GroupOutcome.httpErr ∧
    authTms (Except.ok goodLogin) GroupOutcome.httpErr =
      Except.ok { userId := "1", token := "t" } ∧
    authTms (Except.ok goodLogin) GroupOutcome.httpOk =
      Except.ok { userId := "1", token := "t" } :=
  authTms_groupCall_httpErr_nonfatal (Except.ok goodLogin)
    GroupOutcome.httpErr { userId := "1", token := "t" } (by rfl)

/-- C9: under every interleaving, `runWithConcurrency` never has more than
`limit` worker invocations in flight simultaneously (the runner pool has
size `min limit n`, so in particular at most `min(5, n)` with ceiling 5),
and whenever `Promise.all(runners)` resolves every item has been completed:
slot `i` of the result array holds `worker(items[i], i)`. -/
theorem runWithConcurrency_bounded_and_complete {α β : Type}
    (items : List α) (dflt : α) (worker : α → Nat → β) (limit : Nat)
    (hl : 0 < limit) (choices : List Nat)
    (hterm : isTerminal
      (runWithConcurrency items dflt worker limit choices) = true) :
    (∀ cs : List Nat,
        countWorking (runWithConcurrency items dflt worker limit cs) ≤ limit) ∧
    (∀ i : Nat, i < items.length →
        (runWithConcurrency items dflt worker limit choices).results[i]? =
          some (some (worker (items.getD i dflt) i))) := by
  constructor
  · intro cs
    have inv := runInv_run items dflt worker limit cs
    calc countWorking (runWithConcurrency items dflt worker limit cs)
        ≤ (runWithConcurrency items dflt worker limit cs).runners.length :=
          List.length_filter_le _ _
      _ = min limit items.length := inv.runners_len
      _ ≤ limit := Nat.min_le_left _ _
  · intro i hi
    have inv := runInv_run items dflt worker limit choices
    have hterm' : ∀ (r : Nat) (st : RState),
        (runWithConcurrency items dflt worker limit choices).runners[r]? =
          some st → st = RState.rdone := by
      intro r st hr
      have hmem := List.getElem?_mem hr
      have hall := List.all_eq_true.mp hterm st hmem
      cases st with
      | claiming => simp [RState.isDoneB] at hall
      | working i0 => simp [RState.isDoneB] at hall
      | rdone => rfl
    have hpos : 0 <
        (runWithConcurrency items dflt worker limit choices).runners.length := by
      rw [inv.runners_len]
      exact lt_min_iff.mpr ⟨hl, Nat.lt_of_le_of_lt (Nat.zero_le _) hi⟩
    have h0 :=
      List.getElem?_eq_getElem (l :=
        (runWithConcurrency items dflt worker limit choices).runners) hpos
    have hdone0 :
        (runWithConcurrency items dflt worker limit choices).runners[0]? =
          some RState.rdone := by
      rw [h0]
      exact congrArg some (hterm' 0 _ h0)
    have hle : items.length ≤
        (runWithConcurrency items dflt worker limit choices).nextIndex :=
      inv.done_next 0 hdone0
    rcases inv.covered i (Nat.lt_of_lt_of_le hi hle) hi with ⟨v, hv⟩ | ⟨r, hr⟩
    · rw [hv, inv.results_val i v hv]
    · exact absurd (hterm' r _ hr) (by simp)

/-- C9 witness: two items under ceiling 5 (two runners), with a terminating
interleaving; the bound holds for every interleaving and both result slots
hold the worker's value. -/
theorem runWithConcurrency_bounded_and_complete_witness :
    (∀ cs : List Nat,
        countWorking
          (runWithConcurrency [10, 20] 0 (fun a i => a + i) 5 cs) ≤ 5) ∧
    (∀ i : Nat, i < ([10, 20] : List Nat).length →
        (runWithConcurrency [10, 20] 0 (fun a i => a + i) 5
            [0, 0, 1, 1, 0, 1]).results[i]? =
          some (some (([10, 20] : List Nat).getD i 0 + i))) :=
  runWithConcurrency_bounded_and_complete [10, 20] 0 (fun a i => a + i) 5
    (by decide) [0, 0, 1, 1, 0, 1] (by decide)
